import Mathlib

/-!
Shallow embedding of the VRS VCF indexing pipeline (src/vcf.rs, src/parse.rs).

Rust strings are modelled as List Char.  Rust Result is Except; a Rust panic
(unwrap on an error value) is modelled by an outer Option with none = panic.
Machine integers (i32 positions, the i32 counter) are modelled as Int; the
record position (u32) as Nat.
-/

/-- Decimal digit to its ASCII character, as produced by Rust integer Display. -/
def digitChar : Nat → Char
  | 0 => '0' | 1 => '1' | 2 => '2' | 3 => '3' | 4 => '4'
  | 5 => '5' | 6 => '6' | 7 => '7' | 8 => '8' | 9 => '9'
  | _ => '*'

/-- Character to decimal digit, as consumed by Rust str::parse for base 10. -/
def charDigit (c : Char) : Option Nat :=
  if '0' ≤ c ∧ c ≤ '9' then some (c.toNat - '0'.toNat) else none

/-- Fuel-driven decimal rendering of a natural number (most significant first). -/
def natToCharsAux : Nat → Nat → List Char
  | 0, _ => []
  | fuel + 1, n =>
    if n < 10 then [digitChar n]
    else natToCharsAux fuel (n / 10) ++ [digitChar (n % 10)]

/-- Decimal text of a natural number, as printed by Rust Display for unsigned values. -/
def natToChars (n : Nat) : List Char := natToCharsAux (n + 1) n

/-- Decimal text of an integer, as printed by Rust Display for i32. -/
def intToChars (n : Int) : List Char :=
  if n < 0 then '-' :: natToChars n.natAbs else natToChars n.toNat

/-- Accumulating base-10 evaluation of a digit string; none on a non-digit. -/
def digitsValAux : Nat → List Char → Option Nat
  | acc, [] => some acc
  | acc, c :: cs =>
    match charDigit c with
    | some d => digitsValAux (acc * 10 + d) cs
    | none => none

/-- Base-10 value of a nonempty all-digit string; none otherwise. -/
def digitsVal (cs : List Char) : Option Nat :=
  if cs.isEmpty then none else digitsValAux 0 cs

/-- Sign handling of Rust str::parse for a signed integer type:
an optional leading minus or plus, the rest being the digit part. -/
def parse_sign (s : List Char) : Bool × List Char :=
  match s with
  | c :: rest =>
    if c = '-' then (true, rest) else if c = '+' then (false, rest) else (false, s)
  | [] => (false, [])

/-- Model of Rust str::parse::<i32>: optional sign, a nonempty run of decimal
digits, and an i32 range check; none models Err. -/
def parse_i32 (s : List Char) : Option Int :=
  match digitsVal (parse_sign s).2 with
  | some v =>
    if (parse_sign s).1 then
      (if v ≤ 2 ^ 31 then some (-(v : Int)) else none)
    else
      (if v ≤ 2 ^ 31 - 1 then some ((v : Int)) else none)
  | none => none

/-- Model of Rust str::strip_prefix on ASCII text: the remainder after the
prefix when it matches, none otherwise. -/
def stripPfxAux : List Char → List Char → Option (List Char)
  | [], rest => some rest
  | _ :: _, [] => none
  | q :: ps, c :: cs => if c = q then stripPfxAux ps cs else none

def stripPfx (s p : List Char) : Option (List Char) := stripPfxAux p s

/-- The ga4gh namespace literal of src/vcf.rs line 67. -/
def ga4ghNs : List Char := "ga4gh:".toList

/-- The allele type-token literal of src/vcf.rs lines 69 to 70. -/
def vaPfx : List Char := "VA.".toList

/-- src/vcf.rs VcfError. -/
inductive VcfError
  | UnsupportedFiletype
  | ParseFailure (msg : String)
  | NullField
  | TmpErr
  deriving DecidableEq, Repr

/-- src/vcf.rs VariationType. -/
inductive VariationType
  | Allele
  deriving DecidableEq, Repr

/-- src/vcf.rs VariationType::to_id. -/
def VariationType.to_id : VariationType → Except Unit Nat
  | .Allele => Except.ok 1

/-- src/vcf.rs VrsAlleleAttrs. -/
structure VrsAlleleAttrs where
  vrs_id : List Char
  vrs_start : Int
  vrs_end : Int
  vrs_state : List Char
  deriving DecidableEq, Repr

/-- src/vcf.rs VrsAlleleAttrs::vrs_id_to_vrsix: strip the ga4gh namespace if
present, then require the VA. token and replace it with the allele type id.
The source guards the strip of VA. with starts_with and then unwraps it,
which is the same as matching on the strip result directly; the unwrap of
to_id is modelled by the inner match (its error branch is unreachable). -/
def vrs_id_to_vrsix (vrs_id : List Char) : Except VcfError (List Char) :=
  let no_namespace := (stripPfx vrs_id ga4ghNs).getD vrs_id
  match stripPfx no_namespace vaPfx with
  | some rest =>
    match VariationType.to_id VariationType.Allele with
    | .ok rep => Except.ok (natToChars rep ++ rest)
    | .error _ => Except.error VcfError.TmpErr
  | none => Except.error VcfError.TmpErr

/-- src/vcf.rs VrsVcfFieldName. -/
inductive VrsVcfFieldName
  | VrsAlleleIds
  | VrsStarts
  | VrsEnds
  | VrsStates
  deriving DecidableEq, Repr

/-- The typed array shapes an INFO field can carry, as distinguished by the
match in get_vrs_pos and get_vrs_str_field.  An element of a noodles array is
a Result of an Option; the element-level Err is modelled by Except.error. -/
inductive InfoArrayVal
  | IntegerA (xs : List (Except Unit (Option Int)))
  | StringA (xs : List (Except Unit (Option (List Char))))
  | OtherA

/-- Outcome of info.get(header, name) as the source patterns discriminate it:
the nested Some(Ok(Some(InfoValue::Array(..)))) is the array case, a present
non-array value is nonArray, and every other nesting falls to absent. -/
inductive FieldGet
  | absent
  | nonArray
  | array (a : InfoArrayVal)

/-- The annotation container of one record: the typed lookup keyed by field
name that the source performs through info.get with the header. -/
def Info := VrsVcfFieldName → FieldGet

/-- Element loop of get_vrs_str_field (src/vcf.rs lines 105 to 113): a null
element becomes the empty string, an element-level parse failure stops the
collection with ParseFailure. -/
def str_elems : List (Except Unit (Option (List Char))) → Except VcfError (List (List Char))
  | [] => Except.ok []
  | r :: rest =>
    match r with
    | .ok (some cow) => (str_elems rest).map (fun t => cow :: t)
    | .ok none => (str_elems rest).map (fun t => [] :: t)
    | .error _ =>
      Except.error (VcfError.ParseFailure "Individual array element failed to parse")

/-- src/vcf.rs get_vrs_str_field. -/
def get_vrs_str_field (info : Info) (field : VrsVcfFieldName) :
    Except VcfError (List (List Char)) :=
  match info field with
  | .array (.StringA elems) => str_elems elems
  | .array _ => Except.error (VcfError.ParseFailure "Failed to parse as array of strings")
  | _ => Except.error (VcfError.ParseFailure "Failed to parse as array")

/-- Element loop of the integer branch of get_vrs_pos (src/vcf.rs lines 134
to 142): a null element is TmpErr, an element-level failure is ParseFailure. -/
def int_elems : List (Except Unit (Option Int)) → Except VcfError (List Int)
  | [] => Except.ok []
  | r :: rest =>
    match r with
    | .ok (some num) => (int_elems rest).map (fun t => num :: t)
    | .ok none => Except.error VcfError.TmpErr
    | .error _ =>
      Except.error (VcfError.ParseFailure "Individual array element failed to parse")

/-- Element loop of the legacy string branch of get_vrs_pos (src/vcf.rs lines
146 to 154).  The source parses each element with parse::<i32>().unwrap(), so
malformed digit text panics: the outer none models that panic.  Collection
stops at the first error element, so elements after it are not evaluated. -/
def parse_str_elems : List (Except Unit (Option (List Char))) → Option (Except VcfError (List Int))
  | [] => some (Except.ok [])
  | r :: rest =>
    match r with
    | .ok (some cow) =>
      match parse_i32 cow with
      | some num =>
        (match parse_str_elems rest with
          | some (.ok t) => some (Except.ok (num :: t))
          | other => other)
      | none => none
    | .ok none => some (Except.error VcfError.TmpErr)
    | .error _ =>
      some (Except.error (VcfError.ParseFailure "Individual array element failed to parse"))

/-- src/vcf.rs get_vrs_pos.  The outer Option is the panic channel of the
legacy string branch; all other branches always return some. -/
def get_vrs_pos (info : Info) (field : VrsVcfFieldName) :
    Option (Except VcfError (List Int)) :=
  match info field with
  | .array (.IntegerA elems) => some (int_elems elems)
  | .array (.StringA elems) => parse_str_elems elems
  | .array .OtherA => some (Except.error (VcfError.ParseFailure "Failed to parse as array of ints"))
  | _ => some (Except.error VcfError.TmpErr)

/-- src/parse.rs VcfParseError. -/
inductive VcfParseError
  | Error (msg : String)
  deriving DecidableEq, Repr

/-- Element loop of the integer branch of get_int_info_field (src/parse.rs
lines 119 to 122): i.unwrap() panics on an element-level Err (outer none),
and unwrap_or_default turns a null element into 0. -/
def int_field_int_elems : List (Except Unit (Option Int)) → Option (List Int)
  | [] => some []
  | r :: rest =>
    match r with
    | .ok o =>
      (match int_field_int_elems rest with
        | some t => some (o.getD 0 :: t)
        | none => none)
    | .error _ => none

/-- Element loop of the string branch of get_int_info_field (src/parse.rs
lines 126 to 133): cow_str.unwrap() panics on an element-level Err (outer
none), a null element defaults to the empty string, and a failed parse stops
the collection with the fixed message. -/
def int_field_str_elems : List (Except Unit (Option (List Char))) → Option (Except VcfParseError (List Int))
  | [] => some (Except.ok [])
  | r :: rest =>
    match r with
    | .ok o =>
      match parse_i32 (o.getD []) with
      | some n =>
        (match int_field_str_elems rest with
          | some (.ok t) => some (Except.ok (n :: t))
          | other => other)
      | none => some (Except.error (VcfParseError.Error "Unable to parse int"))
    | .error _ => none

/-- src/parse.rs get_int_info_field. -/
def get_int_info_field (info : Info) (field : VrsVcfFieldName) :
    Option (Except VcfParseError (List Int)) :=
  match info field with
  | .array (.IntegerA elems) => (int_field_int_elems elems).map Except.ok
  | .array (.StringA elems) => int_field_str_elems elems
  | .array .OtherA =>
    some (Except.error (VcfParseError.Error "Expected array variable of strings or integers"))
  | _ => some (Except.error (VcfParseError.Error "Expected Array variant"))

/-- itertools multizip over four sequences: stops at the shortest input. -/
def zip4 {α β γ δ : Type} : List α → List β → List γ → List δ → List (α × β × γ × δ)
  | a :: as, b :: bs, c :: cs, d :: ds => (a, b, c, d) :: zip4 as bs cs ds
  | _, _, _, _ => []

/-- src/vcf.rs iter_vrs_attrs (the InfoFieldTranspose impl for Record): the
four extractions run in order ids, starts, ends, states; an extraction error
yields the one-element error stream; otherwise the four sequences are zipped
positionally with multizip and each tuple becomes an Ok VrsAlleleAttrs.  The
outer Option is the panic channel inherited from get_vrs_pos. -/
def iter_vrs_attrs (info : Info) : Option (List (Except VcfError VrsAlleleAttrs)) :=
  match get_vrs_str_field info .VrsAlleleIds with
  | .error e => some [Except.error e]
  | .ok vrs_ids =>
  match get_vrs_pos info .VrsStarts with
  | none => none
  | some (.error e) => some [Except.error e]
  | some (.ok vrs_starts) =>
  match get_vrs_pos info .VrsEnds with
  | none => none
  | some (.error e) => some [Except.error e]
  | some (.ok vrs_ends) =>
  match get_vrs_str_field info .VrsStates with
  | .error e => some [Except.error e]
  | .ok vrs_states =>
    some ((zip4 vrs_ids vrs_starts vrs_ends vrs_states).map
      (fun x => Except.ok ⟨x.1, x.2.1, x.2.2.1, x.2.2.2⟩))

/-- src/vcf.rs OutfileError. -/
inductive OutfileError
  | General
  deriving DecidableEq, Repr

/-- One decoded variant record as load_vcf consumes it: reference sequence
name, 1-based variant start (the unwraps on variant_start are taken to
succeed, upstream decoding being out of scope), and the INFO container. -/
structure RecordModel where
  chrom : List Char
  pos : Nat
  info : Info

/-- Wrapping to the signed 32-bit range: the value in the interval from
-(2 ^ 31) up to 2 ^ 31 - 1 congruent modulo 2 ^ 32.  This is the release
semantics of i32 addition in the source; a debug build panics at the same
point instead, so past the range no build behaves like unbounded integers. -/
def wrap32 (n : Int) : Int := (n + 2 ^ 31) % 2 ^ 32 - 2 ^ 31

/-- The observable run state of load_vcf: the lines appended to the output
file so far, the number of write attempts so far, the stderr log, and the
cross-reference counter.  In the source the counter is an inferred i32 (let
mut count = 0), so it is modelled as its two's-complement value, kept in the
signed 32-bit range by wrap32 at every increment. -/
structure RunState where
  out : List (List Char)
  widx : Nat
  log : List VcfError
  count : Int
  deriving DecidableEq, Repr

/-- src/vcf.rs write_data_to_file, against a file-system oracle wr saying
whether the k-th write attempt succeeds: a failed attempt appends nothing and
reports OutfileError::General. -/
def write_data_to_file (wr : Nat → Bool) (st : RunState) (line : List Char) :
    RunState × Except OutfileError Unit :=
  if wr st.widx then
    ({ st with out := st.out ++ [line], widx := st.widx + 1 }, Except.ok ())
  else
    ({ st with widx := st.widx + 1 }, Except.error OutfileError.General)

/-- The locus line of src/vcf.rs line 303. -/
def locus_line (chrom : List Char) (pos : Nat) (uri_id : Nat) : List Char :=
  chrom ++ '-' :: natToChars pos ++ '-' :: natToChars uri_id ++ ['\n']

/-- The hash line of src/vcf.rs line 305. -/
def hash_line (hash : List Char) (count : Int) : List Char :=
  hash ++ intToChars count ++ ['\n']

/-- The start line of src/vcf.rs line 307. -/
def start_line (s : Int) (count : Int) : List Char :=
  intToChars s ++ '-' :: intToChars count ++ ['\n']

/-- The end line of src/vcf.rs line 309. -/
def end_line (e : Int) (count : Int) : List Char :=
  intToChars e ++ '-' :: intToChars count ++ ['\n']

/-- The inner allele loop of load_vcf (src/vcf.rs lines 291 to 315).  An Ok
tuple is compacted with vrs_id_to_vrsix().unwrap() (an error there panics:
outer none), its four lines are written with every write result discarded by
a wildcard let, and the counter advances; an Err tuple is appended to the
stderr log and skipped.  The counter advance count += 1 is i32 arithmetic,
hence the wrap32. -/
def run_alleles (wr : Nat → Bool) (chrom : List Char) (pos : Nat) (uri_id : Nat) :
    List (Except VcfError VrsAlleleAttrs) → RunState → Option RunState
  | [], st => some st
  | .ok attrs :: rest, st =>
    (match vrs_id_to_vrsix attrs.vrs_id with
      | .error _ => none
      | .ok hash =>
        let st1 := (write_data_to_file wr st (locus_line chrom pos uri_id)).1
        let st2 := (write_data_to_file wr st1 (hash_line hash st.count)).1
        let st3 := (write_data_to_file wr st2 (start_line attrs.vrs_start st.count)).1
        let st4 := (write_data_to_file wr st3 (end_line attrs.vrs_end st.count)).1
        run_alleles wr chrom pos uri_id rest { st4 with count := wrap32 (st4.count + 1) })
  | .error e :: rest, st =>
    run_alleles wr chrom pos uri_id rest { st with log := st.log ++ [e] }

/-- The record loop of load_vcf (src/vcf.rs lines 286 to 316), with the
hardcoded uri_id of 1 from line 284. -/
def load_vcf_loop (wr : Nat → Bool) :
    List RecordModel → RunState → Option (RunState × Except VcfError Unit)
  | [], st => some (st, Except.ok ())
  | record :: rest, st =>
    match iter_vrs_attrs record.info with
    | none => none
    | some attrs_list =>
      match run_alleles wr record.chrom record.pos 1 attrs_list st with
      | none => none
      | some st1 => load_vcf_loop wr rest st1

/-- src/vcf.rs load_vcf, over an already decoded record stream.  The file_uri
parameter is carried exactly as in the source, which never reads it; the
counter starts at 0 (line 282).  The outer Option is the panic channel. -/
def load_vcf (wr : Nat → Bool) (records : List RecordModel) (file_uri : Option (List Char)) :
    Option (RunState × Except VcfError Unit) :=
  load_vcf_loop wr records { out := [], widx := 0, log := [], count := 0 }

/-- The file-system oracle of a run in which every write succeeds. -/
def trueWr : Nat → Bool := fun _ => true

/-- The file-system oracle of a run in which every write fails. -/
def falseWr : Nat → Bool := fun _ => false

/-! Lemmas about the decimal text functions. -/

theorem natToCharsAux_succ (fuel n : Nat) :
    natToCharsAux (fuel + 1) n =
      if n < 10 then [digitChar n] else natToCharsAux fuel (n / 10) ++ [digitChar (n % 10)] := rfl

theorem natToCharsAux_fuel_irrel :
    ∀ f1 f2 n, n < f1 → n < f2 → natToCharsAux f1 n = natToCharsAux f2 n := by
  intro f1
  induction f1 with
  | zero => intro f2 n h1 _; omega
  | succ g ih =>
    intro f2 n h1 h2
    cases f2 with
    | zero => omega
    | succ h =>
      rw [natToCharsAux_succ, natToCharsAux_succ]
      by_cases hn : n < 10
      · rw [if_pos hn, if_pos hn]
      · rw [if_neg hn, if_neg hn]
        have hd : n / 10 < n := Nat.div_lt_self (by omega) (by omega)
        rw [ih h (n / 10) (by omega) (by omega)]

theorem natToChars_eq (n : Nat) :
    natToChars n = if n < 10 then [digitChar n] else natToChars (n / 10) ++ [digitChar (n % 10)] := by
  by_cases hn : n < 10
  · rw [natToChars, natToCharsAux_succ, if_pos hn, if_pos hn]
  · have hd : n / 10 < n := Nat.div_lt_self (by omega) (by omega)
    rw [natToChars, natToCharsAux_succ, if_neg hn, if_neg hn,
      natToCharsAux_fuel_irrel n (n / 10 + 1) (n / 10) (by omega) (by omega)]
    rfl

theorem natToChars_ne_nil (n : Nat) : natToChars n ≠ [] := by
  rw [natToChars_eq]
  by_cases hn : n < 10 <;> simp [hn]

theorem charDigit_digitChar (d : Nat) (h : d < 10) : charDigit (digitChar d) = some d := by
  interval_cases d <;> decide

theorem digitsValAux_append (l1 l2 : List Char) :
    ∀ acc, digitsValAux acc (l1 ++ l2) =
      (digitsValAux acc l1).bind (fun a => digitsValAux a l2) := by
  induction l1 with
  | nil => intro acc; simp [digitsValAux]
  | cons c cs ih =>
    intro acc
    simp only [List.cons_append, digitsValAux]
    cases charDigit c with
    | none => simp
    | some d => simp [ih]

theorem digitsValAux_natToChars (n : Nat) :
    ∀ acc, digitsValAux acc (natToChars n) =
      some (acc * 10 ^ (natToChars n).length + n) := by
  induction n using Nat.strong_induction_on with
  | _ n ih =>
    intro acc
    by_cases hn : n < 10
    · rw [natToChars_eq, if_pos hn]
      simp [digitsValAux, charDigit_digitChar n hn]
    · have hd : n / 10 < n := Nat.div_lt_self (by omega) (by omega)
      have hm : n % 10 < 10 := Nat.mod_lt _ (by omega)
      rw [natToChars_eq, if_neg hn, digitsValAux_append, ih (n / 10) hd acc]
      have heval : ∀ a : Nat, digitsValAux a [digitChar (n % 10)] = some (a * 10 + n % 10) := by
        intro a
        simp [digitsValAux, charDigit_digitChar (n % 10) hm]
      simp only [Option.bind, heval]
      congr 1
      simp only [List.length_append, List.length_cons, List.length_nil]
      rw [pow_succ, ← mul_assoc]
      generalize acc * 10 ^ (natToChars (n / 10)).length = K
      omega

theorem digitsVal_natToChars (n : Nat) : digitsVal (natToChars n) = some n := by
  have h := natToChars_ne_nil n
  rw [digitsVal, if_neg (by simpa using h), digitsValAux_natToChars]
  simp

theorem natToChars_head :
    ∀ n : Nat, ∃ d t, d < 10 ∧ natToChars n = digitChar d :: t := by
  intro n
  induction n using Nat.strong_induction_on with
  | _ n ih =>
    by_cases hn : n < 10
    · exact ⟨n, [], hn, by rw [natToChars_eq, if_pos hn]⟩
    · have hd : n / 10 < n := Nat.div_lt_self (by omega) (by omega)
      obtain ⟨d, t, hdlt, ht⟩ := ih (n / 10) hd
      exact ⟨d, t ++ [digitChar (n % 10)], hdlt, by
        rw [natToChars_eq, if_neg hn, ht]; simp⟩

theorem digitChar_ne_dash (d : Nat) (h : d < 10) : digitChar d ≠ '-' ∧ digitChar d ≠ '+' := by
  interval_cases d <;> decide

/-- Rust str::parse::<i32> inverts the Display of every value in i32 range. -/
theorem parse_i32_intToChars (n : Int) (h1 : -(2 ^ 31) ≤ n) (h2 : n ≤ 2 ^ 31 - 1) :
    parse_i32 (intToChars n) = some n := by
  by_cases hneg : n < 0
  · rw [intToChars, if_pos hneg]
    have hsign : parse_sign ('-' :: natToChars n.natAbs) = (true, natToChars n.natAbs) := by
      simp [parse_sign]
    have hle : n.natAbs ≤ 2 ^ 31 := by omega
    rw [parse_i32, hsign]
    simp only [digitsVal_natToChars]
    rw [if_pos trivial, if_pos hle]
    congr 1
    omega
  · rw [intToChars, if_neg hneg]
    obtain ⟨d, t, hdlt, ht⟩ := natToChars_head n.toNat
    obtain ⟨hne1, hne2⟩ := digitChar_ne_dash d hdlt
    have hsign : parse_sign (natToChars n.toNat) = (false, natToChars n.toNat) := by
      rw [ht]
      simp [parse_sign, hne1, hne2]
    have hle : n.toNat ≤ 2 ^ 31 - 1 := by omega
    rw [parse_i32, hsign]
    simp only [digitsVal_natToChars]
    rw [if_neg (by decide), if_pos hle]
    congr 1
    omega

/-! Lemmas about the extractors. -/

theorem int_elems_map (l : List Int) :
    int_elems (l.map fun n => Except.ok (some n)) = Except.ok l := by
  induction l with
  | nil => rfl
  | cons n t ih => simp [int_elems, ih, Except.map]

theorem parse_str_elems_map (l : List Int)
    (h : ∀ n ∈ l, -(2 ^ 31) ≤ n ∧ n ≤ 2 ^ 31 - 1) :
    parse_str_elems (l.map fun n => Except.ok (some (intToChars n))) = some (Except.ok l) := by
  induction l with
  | nil => rfl
  | cons n t ih =>
    have hn := h n (by simp)
    have ht : ∀ m ∈ t, -(2 ^ 31) ≤ m ∧ m ≤ 2 ^ 31 - 1 := fun m hm => h m (by simp [hm])
    simp only [List.map_cons, parse_str_elems, parse_i32_intToChars n hn.1 hn.2, ih ht]

/-- An INFO container holding only the VRS_Starts field, with the given array. -/
def starts_info (a : InfoArrayVal) : Info := fun f =>
  match f with
  | .VrsStarts => .array a
  | _ => .absent

/-! The group shape of the output encoding, for stating the counter invariant. -/

/-- The data of one allele output group apart from its counter. -/
structure GroupData where
  chrom : List Char
  pos : Nat
  hash : List Char
  vstart : Int
  vend : Int

/-- The four lines of one allele output group keyed by counter value c,
with the constant source id 1. -/
def group_lines (g : GroupData) (c : Int) : List (List Char) :=
  [locus_line g.chrom g.pos 1, hash_line g.hash c, start_line g.vstart c, end_line g.vend c]

/-- The ideal output of a run of consecutive allele groups whose counters
start at c and increase by exactly one per group, never reused or reset. -/
def segJoin : List GroupData → Int → List (List Char)
  | [], _ => []
  | g :: gs, c => group_lines g c ++ segJoin gs (c + 1)

/-- The actual output of a run of consecutive allele groups under the i32
counter: each group carries the current counter and the counter advances by
a wrapping 32-bit increment. -/
def segJoin32 : List GroupData → Int → List (List Char)
  | [], _ => []
  | g :: gs, c => group_lines g c ++ segJoin32 gs (wrap32 (c + 1))

/-- The i32 counter value after n wrapping increments from c. -/
def bump32 (c : Int) : Nat → Int
  | 0 => c
  | n + 1 => wrap32 (bump32 c n + 1)

theorem wrap32_eq_self (x : Int) (h1 : -(2 ^ 31) ≤ x) (h2 : x < 2 ^ 31) : wrap32 x = x := by
  rw [wrap32]
  omega

theorem bump32_shift (c : Int) : ∀ n : Nat, bump32 (wrap32 (c + 1)) n = bump32 c (n + 1) := by
  intro n
  induction n with
  | zero => rfl
  | succ m ih =>
    show wrap32 (bump32 (wrap32 (c + 1)) m + 1) = wrap32 (bump32 c (m + 1) + 1)
    rw [ih]

theorem bump32_add (c : Int) (n1 : Nat) : ∀ n2 : Nat, bump32 c (n1 + n2) = bump32 (bump32 c n1) n2 := by
  intro n2
  induction n2 with
  | zero => rfl
  | succ m ih => rw [← Nat.add_assoc, bump32, ih, bump32]

theorem bump32_eq_add (n : Nat) : ∀ c : Int, 0 ≤ c → c + n < 2 ^ 31 → bump32 c n = c + n := by
  induction n with
  | zero => intro c _ _; simp [bump32]
  | succ m ih =>
    intro c hc hlt
    have hm : c + m < 2 ^ 31 := by push_cast at hlt ⊢; omega
    rw [bump32, ih c hc hm, wrap32_eq_self _ (by omega) (by push_cast at hlt ⊢; omega)]
    push_cast
    ring

theorem segJoin32_append (a b : List GroupData) :
    ∀ c : Int, segJoin32 (a ++ b) c = segJoin32 a c ++ segJoin32 b (bump32 c a.length) := by
  induction a with
  | nil => intro c; simp [segJoin32, bump32]
  | cons g t ih =>
    intro c
    simp only [List.cons_append, segJoin32, List.append_eq, ih (wrap32 (c + 1)),
      List.append_assoc, List.length_cons, bump32_shift]

/-- On a run segment whose counters stay below the i32 bound, the wrapping
counter behaves like the ideal unit-increment counter. -/
theorem segJoin32_eq_segJoin :
    ∀ (gs : List GroupData) (c : Int), 0 ≤ c → c + gs.length < 2 ^ 31 →
      segJoin32 gs c = segJoin gs c := by
  intro gs
  induction gs with
  | nil => intro c _ _; rfl
  | cons g t ih =>
    intro c hc hlt
    have h1 : wrap32 (c + 1) = c + 1 := by
      refine wrap32_eq_self _ (by omega) ?_
      simp only [List.length_cons] at hlt
      push_cast at hlt
      omega
    rw [segJoin32, segJoin, h1, ih (c + 1) (by omega) (by
      simp only [List.length_cons] at hlt
      push_cast at hlt ⊢
      omega)]

theorem run_alleles_seg (chrom : List Char) (pos : Nat) :
    ∀ (l : List (Except VcfError VrsAlleleAttrs)) (st st' : RunState),
      run_alleles trueWr chrom pos 1 l st = some st' →
      ∃ gs : List GroupData,
        st'.out = st.out ++ segJoin32 gs st.count ∧
        st'.count = bump32 st.count gs.length := by
  intro l
  induction l with
  | nil =>
    intro st st' h
    simp only [run_alleles, Option.some.injEq] at h
    subst h
    exact ⟨[], by simp [segJoin32], by simp [bump32]⟩
  | cons r rest ih =>
    intro st st' h
    cases r with
    | error e =>
      simp only [run_alleles] at h
      obtain ⟨gs, h1, h2⟩ := ih _ _ h
      exact ⟨gs, by simpa using h1, by simpa using h2⟩
    | ok attrs =>
      simp only [run_alleles, write_data_to_file, trueWr, if_true] at h
      split at h
      · exact absurd h (by simp)
      · rename_i hash hv
        obtain ⟨gs, h1, h2⟩ := ih _ _ h
        refine ⟨⟨chrom, pos, hash, attrs.vrs_start, attrs.vrs_end⟩ :: gs, ?_, ?_⟩
        · rw [h1]
          simp [segJoin32, group_lines, List.append_assoc]
        · rw [h2]
          simp only [List.length_cons, bump32_shift]

theorem load_vcf_loop_seg :
    ∀ (records : List RecordModel) (st st' : RunState) (r : Except VcfError Unit),
      load_vcf_loop trueWr records st = some (st', r) →
      ∃ gs : List GroupData,
        st'.out = st.out ++ segJoin32 gs st.count ∧
        st'.count = bump32 st.count gs.length := by
  intro records
  induction records with
  | nil =>
    intro st st' r h
    simp only [load_vcf_loop, Option.some.injEq, Prod.mk.injEq] at h
    obtain ⟨h1, _⟩ := h
    subst h1
    exact ⟨[], by simp [segJoin32], by simp [bump32]⟩
  | cons record rest ih =>
    intro st st' r h
    simp only [load_vcf_loop] at h
    split at h
    · exact absurd h (by simp)
    · rename_i attrs_list _
      split at h
      · exact absurd h (by simp)
      · rename_i st1 hrun
        obtain ⟨gs1, ho1, hc1⟩ := run_alleles_seg _ _ _ _ _ hrun
        obtain ⟨gs2, ho2, hc2⟩ := ih _ _ _ h
        refine ⟨gs1 ++ gs2, ?_, ?_⟩
        · rw [ho2, ho1, hc1, segJoin32_append]
          simp [List.append_assoc]
        · rw [hc2, hc1, List.length_append, bump32_add]

/-! Concrete inputs used by the claim theorems. -/

/-- A record INFO with mismatched array lengths: 3 ids, 2 starts, 3 ends, 3 states. -/
def infoC1 : Info := fun f =>
  match f with
  | .VrsAlleleIds => .array (.StringA
      [.ok (some "ga4gh:VA.a".toList), .ok (some "ga4gh:VA.b".toList), .ok (some "ga4gh:VA.c".toList)])
  | .VrsStarts => .array (.IntegerA [.ok (some 5), .ok (some 6)])
  | .VrsEnds => .array (.IntegerA [.ok (some 7), .ok (some 8), .ok (some 9)])
  | .VrsStates => .array (.StringA [.ok (some "S".toList), .ok (some "T".toList), .ok (some "U".toList)])

/-- A well-formed record INFO with two alleles. -/
def infoC2 : Info := fun f =>
  match f with
  | .VrsAlleleIds => .array (.StringA [.ok (some "ga4gh:VA.abc".toList), .ok (some "ga4gh:VA.def".toList)])
  | .VrsStarts => .array (.IntegerA [.ok (some 5), .ok (some 6)])
  | .VrsEnds => .array (.IntegerA [.ok (some 7), .ok (some 8)])
  | .VrsStates => .array (.StringA [.ok (some "A".toList), .ok (some "T".toList)])

/-- A well-formed two-allele record. -/
def recordC2 : RecordModel := ⟨"2".toList, 30, infoC2⟩

/-- A record INFO whose single allele id carries the unrecognized CN token. -/
def infoC3 : Info := fun f =>
  match f with
  | .VrsAlleleIds => .array (.StringA [.ok (some "ga4gh:CN.xyz".toList)])
  | .VrsStarts => .array (.IntegerA [.ok (some 1)])
  | .VrsEnds => .array (.IntegerA [.ok (some 2)])
  | .VrsStates => .array (.StringA [.ok (some "C".toList)])

/-- The record with the unrecognized variation type. -/
def recordC3bad : RecordModel := ⟨"1".toList, 7, infoC3⟩

/-- A well-formed record following the bad one. -/
def recordC3good : RecordModel := ⟨"2".toList, 30, infoC2⟩

/-- The INFO container of the end-to-end example of the spec. -/
def infoC5 : Info := fun f =>
  match f with
  | .VrsAlleleIds => .array (.StringA [.ok (some "ga4gh:VA.abc".toList)])
  | .VrsStarts => .array (.IntegerA [.ok (some 999)])
  | .VrsEnds => .array (.IntegerA [.ok (some 1000)])
  | .VrsStates => .array (.StringA [.ok (some "A".toList)])

/-- The end-to-end example record: chromosome 1, position 1000. -/
def recordC5 : RecordModel := ⟨"1".toList, 1000, infoC5⟩

/-- A well-formed record INFO with two alleles, for the counter claim. -/
def infoC8 : Info := fun f =>
  match f with
  | .VrsAlleleIds => .array (.StringA [.ok (some "ga4gh:VA.x".toList), .ok (some "ga4gh:VA.y".toList)])
  | .VrsStarts => .array (.IntegerA [.ok (some 11), .ok (some 12)])
  | .VrsEnds => .array (.IntegerA [.ok (some 13), .ok (some 14)])
  | .VrsStates => .array (.StringA [.ok (some "G".toList), .ok (some "C".toList)])

/-- The record for the counter claim witness. -/
def recC8 : RecordModel := ⟨"3".toList, 42, infoC8⟩

/-- The run state load_vcf reaches on recC8 with all writes succeeding. -/
def stC8 : RunState :=
  { out := ["3-42-1\n".toList, "1x0\n".toList, "11-0\n".toList, "13-0\n".toList,
            "3-42-1\n".toList, "1y1\n".toList, "12-1\n".toList, "14-1\n".toList],
    widx := 8, log := [], count := 2 }

/-! The claim theorems. -/

/-- C1: the claim says mismatched array lengths fail the whole record with
LengthMismatch and produce no tuples.  The code does the opposite: multizip
silently truncates to the shortest input.  With 3 ids, 2 starts, 3 ends and
3 states the transposer yields two Ok tuples and no error. -/
theorem C1_transposer_truncates_on_mismatch :
    iter_vrs_attrs infoC1 =
      some [Except.ok ⟨"ga4gh:VA.a".toList, 5, 7, "S".toList⟩,
            Except.ok ⟨"ga4gh:VA.b".toList, 6, 8, "T".toList⟩] := by rfl

/-- C2: the claim says a write or flush failure reaches the orchestrator and
terminates the run.  The code discards every result of write_data_to_file
with a wildcard let: on a run in which all 8 write attempts fail, load_vcf
still returns Ok, processes both alleles, advances the counter to 2, and
surfaces no error. -/
theorem C2_write_failure_discarded :
    load_vcf falseWr [recordC2] none =
      some ({ out := [], widx := 8, log := [], count := 2 }, Except.ok ()) := by rfl

/-- C3: the claim says a compaction failure is logged, the record skipped,
and the run continues, never crashing.  The code unwraps vrs_id_to_vrsix, so
a record whose id carries the unrecognized CN token panics (none) and the
following well-formed record is never processed. -/
theorem C3_compaction_failure_panics :
    load_vcf trueWr [recordC3bad, recordC3good] none = none := by rfl

/-- C4: the claim says malformed base-10 text in a legacy string numeric
field returns a MalformedNumber error and never aborts.  The pipeline
extractor get_vrs_pos calls parse::<i32>().unwrap() and panics (none); the
parse.rs variant get_int_info_field returns a fixed-message error that does
not carry the offending text. -/
theorem C4_malformed_number_panics :
    get_vrs_pos (starts_info (.StringA [Except.ok (some "abc".toList)])) .VrsStarts = none ∧
    get_int_info_field (starts_info (.StringA [Except.ok (some "abc".toList)])) .VrsStarts =
      some (Except.error (VcfParseError.Error "Unable to parse int")) := ⟨rfl, rfl⟩

/-- C5: processing the single record on chromosome 1 at position 1000 with
ids ga4gh:VA.abc, starts 999, ends 1000, states A, source id 1 and counter 0
appends exactly the four newline-terminated lines 1-1000-1, 1abc0, 999-0,
1000-0 in that order; the state value A appears in none of them. -/
theorem C5_end_to_end_record :
    load_vcf trueWr [recordC5] none =
      some ({ out := ["1-1000-1\n".toList, "1abc0\n".toList, "999-0\n".toList, "1000-0\n".toList],
              widx := 4, log := [], count := 1 }, Except.ok ()) := by rfl

/-- C6: identifier compaction is a pure function of its input and is
namespace-insensitive: for every suffix, the id with the ga4gh namespace and
the id without it compact to the same Ok result, the type token VA replaced
by 1; in particular both forms of VA.abc123 compact to 1abc123. -/
theorem C6_compaction_namespace_insensitive :
    (∀ suf : List Char,
      vrs_id_to_vrsix ("ga4gh:VA.".toList ++ suf) = vrs_id_to_vrsix ("VA.".toList ++ suf) ∧
      vrs_id_to_vrsix ("ga4gh:VA.".toList ++ suf) = Except.ok ('1' :: suf)) ∧
    vrs_id_to_vrsix "ga4gh:VA.abc123".toList = Except.ok "1abc123".toList ∧
    vrs_id_to_vrsix "VA.abc123".toList = Except.ok "1abc123".toList :=
  ⟨fun suf => ⟨rfl, rfl⟩, rfl, rfl⟩

/-- C7: numeric field extraction is representation-insensitive: for every
list of in-range i32 values, the native integer array and the legacy string
array holding their base-10 texts extract to the same Ok list. -/
theorem C7_numeric_representation_insensitive (l : List Int)
    (h : ∀ n ∈ l, -(2 ^ 31) ≤ n ∧ n ≤ 2 ^ 31 - 1) :
    get_vrs_pos (starts_info (InfoArrayVal.IntegerA (l.map fun n => Except.ok (some n))))
        .VrsStarts = some (Except.ok l) ∧
    get_vrs_pos (starts_info (InfoArrayVal.StringA (l.map fun n => Except.ok (some (intToChars n)))))
        .VrsStarts = some (Except.ok l) := by
  constructor
  · show some (int_elems _) = _
    rw [int_elems_map]
  · show parse_str_elems _ = _
    rw [parse_str_elems_map l h]

/-- Witness for C7 at the list 10, 20 of the spec example. -/
theorem C7_witness :
    (∀ n ∈ ([10, 20] : List Int), -(2 ^ 31) ≤ n ∧ n ≤ 2 ^ 31 - 1) ∧
    (get_vrs_pos (starts_info (InfoArrayVal.IntegerA
        (([10, 20] : List Int).map fun n => Except.ok (some n)))) .VrsStarts =
      some (Except.ok ([10, 20] : List Int)) ∧
    get_vrs_pos (starts_info (InfoArrayVal.StringA
        (([10, 20] : List Int).map fun n => Except.ok (some (intToChars n))))) .VrsStarts =
      some (Except.ok ([10, 20] : List Int))) :=
  ⟨by decide, C7_numeric_representation_insensitive [10, 20] (by decide)⟩

/-- C8: in a run in which every write succeeds, the lines appended by
load_vcf are exactly a sequence of four-line allele groups driven by the i32
counter starting at the fixed value 0 and advancing by a wrapping increment
per group (segJoin32), and the final counter is the 0-based wrapped group
count; consequently, for every run of fewer than 2 ^ 31 allele groups, the
range the i32 counter covers before it would wrap or panic, the groups carry
exactly the counters 0, 1, ..., n - 1 in order (segJoin): each increases by
exactly one over its predecessor, none is reused or reset, every group has a
counter strictly greater than all earlier groups, and the final counter
equals the number of groups. -/
theorem C8_counter_monotonic (records : List RecordModel) (uri : Option (List Char))
    (st : RunState) (r : Except VcfError Unit)
    (h : load_vcf trueWr records uri = some (st, r)) :
    ∃ gs : List GroupData, st.out = segJoin32 gs 0 ∧ st.count = bump32 0 gs.length ∧
      ((gs.length : Int) < 2 ^ 31 →
        st.out = segJoin gs 0 ∧ st.count = gs.length) := by
  obtain ⟨gs, h1, h2⟩ := load_vcf_loop_seg records _ st r h
  refine ⟨gs, by simpa using h1, by simpa using h2, fun hlen => ?_⟩
  constructor
  · rw [← segJoin32_eq_segJoin gs 0 le_rfl (by simpa using hlen)]
    simpa using h1
  · rw [h2]
    simp only []
    rw [bump32_eq_add gs.length 0 le_rfl (by simpa using hlen)]
    simp

/-- Witness for C8 on a concrete two-allele run. -/
theorem C8_witness :
    ∃ gs : List GroupData, stC8.out = segJoin32 gs 0 ∧ stC8.count = bump32 0 gs.length ∧
      ((gs.length : Int) < 2 ^ 31 →
        stC8.out = segJoin gs 0 ∧ stC8.count = gs.length) :=
  C8_counter_monotonic [recC8] none stC8 (Except.ok ()) rfl

/-- C9: for every raw identifier whose leading token after optional namespace
stripping is not the VA token of the closed VariationType enumeration,
compaction fails with the error the source uses for that case (the TmpErr
placeholder, the UnrecognizedVariationType of the spec taxonomy) and
produces no compact identifier. -/
theorem C9_unrecognized_variation_type (vid : List Char)
    (h : stripPfx ((stripPfx vid ga4ghNs).getD vid) vaPfx = none) :
    vrs_id_to_vrsix vid = Except.error VcfError.TmpErr := by
  simp [vrs_id_to_vrsix, h]

/-- Witness for C9 at the id ga4gh:CN.xyz of the spec example. -/
theorem C9_witness :
    stripPfx ((stripPfx "ga4gh:CN.xyz".toList ga4ghNs).getD "ga4gh:CN.xyz".toList) vaPfx = none ∧
    vrs_id_to_vrsix "ga4gh:CN.xyz".toList = Except.error VcfError.TmpErr :=
  ⟨rfl, C9_unrecognized_variation_type _ rfl⟩

/-- C10: the bytes load_vcf appends are independent of the file_uri argument:
for any two values of it, including none, over the same input stream and
file-system behavior, the entire run result is identical, the source id in
every locus line being the constant 1. -/
theorem C10_output_independent_of_file_uri (wr : Nat → Bool) (records : List RecordModel)
    (u1 u2 : Option (List Char)) :
    load_vcf wr records u1 = load_vcf wr records u2 := rfl
